import Mathlib

/-!
Verification of the YANC ComfyUI node pack (`yanc.py`): the Structured Noise
Synthesizer (`YANCNoiseFromImage.do_it`), the Staged Injection Sampler
(`YANCNIKSampler.do_it`) and the shared blend / guidance-rescale helpers
(`blend_images`, `patch`).

Modelling conventions.
* Machine floats are modelled as exact rationals (`ℚ`).  Where a claim's
  example value is a decimal literal that is not exactly representable as a
  binary64 float (8.05), the exact rational value of the nearest double is
  used, so Python's `round` behaviour is reproduced faithfully.
* Python's `round` (banker's rounding, ties to even) is `roundHalfEven`.
* An image tensor is a batch (list) of images, an image a list of RGB
  pixels, a pixel a triple of rationals.  All torch operations appearing in
  the source (`+`, `*` with a scalar, `torch.where`, `torch.max`, `torch.min`)
  are elementwise or reductions over all elements; layout-only operations
  (`movedim`, `permute`, `squeeze`, `view`) do not change the multiset of
  values and are modelled as the identity.
* A latent's `samples` tensor is flattened to a list of rationals; spatial
  shape is abstracted to the element count (the source only ever tests
  shapes for equality and resizes to the other operand's shape).
-/

instance {ε α : Type} [DecidableEq ε] [DecidableEq α] : DecidableEq (Except ε α) := fun a b =>
  match a, b with
  | .ok x, .ok y =>
    if h : x = y then .isTrue (by rw [h]) else .isFalse (fun c => h (Except.ok.inj c))
  | .error x, .error y =>
    if h : x = y then .isTrue (by rw [h]) else .isFalse (fun c => h (Except.error.inj c))
  | .ok _, .error _ => .isFalse (fun c => Except.noConfusion c)
  | .error _, .ok _ => .isFalse (fun c => Except.noConfusion c)

/-- An RGB pixel: three float components. -/
abbrev Pixel : Type := ℚ × ℚ × ℚ

/-- One image: a list of pixels (spatial layout abstracted away). -/
abbrev Img : Type := List Pixel

/-- A batched image tensor: a list of images. -/
abbrev Batch : Type := List Img

/-- Apply a scalar function to each component of a pixel. -/
def pixMap (f : ℚ → ℚ) (p : Pixel) : Pixel :=
  (f p.1, f p.2.1, f p.2.2)

/-- Combine two pixels componentwise. -/
def pixZip (f : ℚ → ℚ → ℚ) (p q : Pixel) : Pixel :=
  (f p.1 q.1, f p.2.1 q.2.1, f p.2.2 q.2.2)

/-- Elementwise map over a batched image tensor. -/
def batchMap (f : ℚ → ℚ) (b : Batch) : Batch :=
  b.map (fun img => img.map (pixMap f))

/-- Elementwise combination of two batched image tensors. -/
def batchZip (f : ℚ → ℚ → ℚ) (a b : Batch) : Batch :=
  List.zipWith (fun i j => List.zipWith (pixZip f) i j) a b

/-- `scalar * tensor` (elementwise). -/
def smulB (c : ℚ) (b : Batch) : Batch := batchMap (fun v => c * v) b

/-- `tensor + tensor` (elementwise). -/
def addB (a b : Batch) : Batch := batchZip (fun x y => x + y) a b

/-- `tensor * tensor` (elementwise). -/
def mulB (a b : Batch) : Batch := batchZip (fun x y => x * y) a b

/-- `soft_light_blend` from yanc.py: `2*base*blend + base**2 * (1 - 2*blend)`,
elementwise. -/
def soft_light_blend (base blend : Batch) : Batch :=
  batchZip (fun a b => 2 * a * b + a ^ 2 * (1 - 2 * b)) base blend

/-- `hard_light_blend` from yanc.py: `2*base*blend + (1 - 2*base)*(1 - blend)`,
elementwise. -/
def hard_light_blend (base blend : Batch) : Batch :=
  batchZip (fun a b => 2 * a * b + (1 - 2 * a) * (1 - b)) base blend

/-- `lighten_blend` from yanc.py: `torch.max(base, blend)` (elementwise max). -/
def lighten_blend (base blend : Batch) : Batch :=
  batchZip (fun a b => max a b) base blend

/-- `darken_blend` from yanc.py: `torch.min(base, blend)` (elementwise min). -/
def darken_blend (base blend : Batch) : Batch :=
  batchZip (fun a b => min a b) base blend

/-- The overlay branch of `blend_images`:
`torch.where(image1 < 0.5, 2*image1*image2, 1 - 2*(1-image1)*(1-image2))`,
which elementwise selects by the `image1 < 0.5` test. -/
def overlayWhere (image1 image2 : Batch) : Batch :=
  batchZip (fun a b => if a < 1/2 then 2 * a * b else 1 - 2 * (1 - a) * (1 - b))
    image1 image2

/-- `blend_images` from yanc.py.  Each arm is
`(1 - blend_rate) * image1 + blend_rate * (<mode blend>)`; an unknown mode
raises `ValueError("Unsupported blend mode")`, modelled as `Except.error`. -/
def blend_images (image1 image2 : Batch) (blend_mode : String)
    (blend_rate : ℚ) : Except String Batch :=
  if blend_mode = "multiply" then
    .ok (addB (smulB (1 - blend_rate) image1) (smulB blend_rate (mulB image1 image2)))
  else if blend_mode = "add" then
    .ok (addB (smulB (1 - blend_rate) image1) (smulB blend_rate (addB image1 image2)))
  else if blend_mode = "overlay" then
    .ok (addB (smulB (1 - blend_rate) image1) (smulB blend_rate (overlayWhere image1 image2)))
  else if blend_mode = "soft light" then
    .ok (addB (smulB (1 - blend_rate) image1) (smulB blend_rate (soft_light_blend image1 image2)))
  else if blend_mode = "hard light" then
    .ok (addB (smulB (1 - blend_rate) image1) (smulB blend_rate (hard_light_blend image1 image2)))
  else if blend_mode = "lighten" then
    .ok (addB (smulB (1 - blend_rate) image1) (smulB blend_rate (lighten_blend image1 image2)))
  else if blend_mode = "darken" then
    .ok (addB (smulB (1 - blend_rate) image1) (smulB blend_rate (darken_blend image1 image2)))
  else
    .error "Unsupported blend mode"

/-- The documented closed form `blend(A,B)` of the spec, per scalar value:
multiply `A*B`; add `A+B`; overlay `2AB` where `A<0.5` else `1-2(1-A)(1-B)`;
soft-light `2AB + A^2(1-2B)`; hard-light `2AB + (1-2A)(1-B)`;
lighten `max`; darken `min`.  (Spec-side definition, for comparison.) -/
def blendSpecVal (blend_mode : String) (a b : ℚ) : ℚ :=
  if blend_mode = "multiply" then a * b
  else if blend_mode = "add" then a + b
  else if blend_mode = "overlay" then
    (if a < 1/2 then 2 * a * b else 1 - 2 * (1 - a) * (1 - b))
  else if blend_mode = "soft light" then 2 * a * b + a ^ 2 * (1 - 2 * b)
  else if blend_mode = "hard light" then 2 * a * b + (1 - 2 * a) * (1 - b)
  else if blend_mode = "lighten" then max a b
  else if blend_mode = "darken" then min a b
  else 0

lemma pixZip_pixMap_left (f : ℚ → ℚ → ℚ) (g : ℚ → ℚ) (p q : Pixel) :
    pixZip f (pixMap g p) q = pixZip (fun a b => f (g a) b) p q := rfl

lemma batchZip_batchMap_left (f : ℚ → ℚ → ℚ) (g : ℚ → ℚ) (a b : Batch) :
    batchZip f (batchMap g a) b = batchZip (fun x y => f (g x) y) a b := by
  induction a generalizing b with
  | nil => simp [batchZip, batchMap]
  | cons i rest ih =>
    cases b with
    | nil => simp [batchZip, batchMap]
    | cons j brest =>
      simp only [batchZip, batchMap, List.map_cons, List.zipWith_cons_cons,
        List.cons.injEq] at *
      refine ⟨?_, ih brest⟩
      induction i generalizing j with
      | nil => simp
      | cons p ps ihp =>
        cases j with
        | nil => simp
        | cons q qs =>
          simp only [List.map_cons, List.zipWith_cons_cons, List.cons.injEq]
          exact ⟨rfl, ihp qs⟩

lemma batchMap_batchZip (g : ℚ → ℚ) (f : ℚ → ℚ → ℚ) (a b : Batch) :
    batchMap g (batchZip f a b) = batchZip (fun x y => g (f x y)) a b := by
  induction a generalizing b with
  | nil => simp [batchZip, batchMap]
  | cons i rest ih =>
    cases b with
    | nil => simp [batchZip, batchMap]
    | cons j brest =>
      simp only [batchZip, batchMap, List.map_cons, List.zipWith_cons_cons,
        List.cons.injEq] at *
      refine ⟨?_, ih brest⟩
      induction i generalizing j with
      | nil => simp
      | cons p ps ihp =>
        cases j with
        | nil => simp
        | cons q qs =>
          simp only [List.map_cons, List.zipWith_cons_cons, List.cons.injEq]
          exact ⟨rfl, ihp qs⟩

lemma batchZip_batchZip_right (f g : ℚ → ℚ → ℚ) (a b : Batch) :
    batchZip f a (batchZip g a b) = batchZip (fun x y => f x (g x y)) a b := by
  induction a generalizing b with
  | nil => simp [batchZip]
  | cons i rest ih =>
    cases b with
    | nil => simp [batchZip]
    | cons j brest =>
      simp only [batchZip, List.zipWith_cons_cons, List.cons.injEq] at *
      refine ⟨?_, ih brest⟩
      induction i generalizing j with
      | nil => simp
      | cons p ps ihp =>
        cases j with
        | nil => simp
        | cons q qs =>
          simp only [List.zipWith_cons_cons, List.cons.injEq]
          exact ⟨rfl, ihp qs⟩

lemma batchZip_congr (f g : ℚ → ℚ → ℚ) (h : ∀ x y, f x y = g x y) (a b : Batch) :
    batchZip f a b = batchZip g a b := by
  have : f = g := funext fun x => funext fun y => h x y
  rw [this]

/-- Fused elementwise form of one `blend_images` arm: for any elementwise
mode body `m`, `(1-r)*A + r*(m A B)` equals a single `batchZip`. -/
lemma blend_arm_fused (r : ℚ) (m : ℚ → ℚ → ℚ) (a b : Batch) :
    addB (smulB (1 - r) a) (smulB r (batchZip m a b)) =
      batchZip (fun x y => (1 - r) * x + r * m x y) a b := by
  unfold addB smulB
  rw [batchMap_batchZip, batchZip_batchMap_left, batchZip_batchZip_right]

example :
    blend_images [[(1, 0, 0)]] [[(1/2, 0, 0)]] "multiply" (1/2) =
      .ok [[(3/4, 0, 0)]] := by
  rw [show blend_images [[(1, 0, 0)]] [[(1/2, 0, 0)]] "multiply" (1/2)
      = .ok (addB (smulB (1 - 1/2) [[(1, 0, 0)]])
          (smulB (1/2) (mulB [[(1, 0, 0)]] [[(1/2, 0, 0)]]))) from rfl]
  norm_num [addB, smulB, mulB, batchZip, batchMap, pixZip, pixMap]

/-- C3: for every pair of image batches, every rate and every supported
blend mode, `blend_images A B mode r` succeeds and equals the elementwise
map `(1-r)·A + r·blend(A,B)` with `blend(A,B)` the documented closed form
(`blendSpecVal`): multiply `A*B`, add `A+B`, overlay `2AB` where `A<0.5`
else `1-2(1-A)(1-B)`, soft-light `2AB+A²(1-2B)`, hard-light
`2AB+(1-2A)(1-B)`, lighten `max`, darken `min`. -/
theorem blend_images_matches_documented_formula (A B : Batch) (r : ℚ)
    (blend_mode : String)
    (hmode : blend_mode ∈ ["multiply", "add", "overlay", "soft light",
      "hard light", "lighten", "darken"]) :
    blend_images A B blend_mode r =
      .ok (batchZip (fun a b => (1 - r) * a + r * blendSpecVal blend_mode a b) A B) := by
  fin_cases hmode
  · rw [show blend_images A B "multiply" r
        = .ok (addB (smulB (1 - r) A) (smulB r (batchZip (fun x y => x * y) A B))) from rfl,
      blend_arm_fused]
    exact congrArg Except.ok (batchZip_congr _ _
      (fun x y => by rw [show blendSpecVal "multiply" x y = x * y from rfl]) A B)
  · rw [show blend_images A B "add" r
        = .ok (addB (smulB (1 - r) A) (smulB r (batchZip (fun x y => x + y) A B))) from rfl,
      blend_arm_fused]
    exact congrArg Except.ok (batchZip_congr _ _
      (fun x y => by rw [show blendSpecVal "add" x y = x + y from rfl]) A B)
  · rw [show blend_images A B "overlay" r
        = .ok (addB (smulB (1 - r) A) (smulB r (batchZip
            (fun x y => if x < 1/2 then 2 * x * y else 1 - 2 * (1 - x) * (1 - y)) A B))) from rfl,
      blend_arm_fused]
    exact congrArg Except.ok (batchZip_congr _ _
      (fun x y => by
        rw [show blendSpecVal "overlay" x y
            = (if x < 1/2 then 2 * x * y else 1 - 2 * (1 - x) * (1 - y)) from rfl]) A B)
  · rw [show blend_images A B "soft light" r
        = .ok (addB (smulB (1 - r) A) (smulB r (batchZip
            (fun x y => 2 * x * y + x ^ 2 * (1 - 2 * y)) A B))) from rfl,
      blend_arm_fused]
    exact congrArg Except.ok (batchZip_congr _ _
      (fun x y => by
        rw [show blendSpecVal "soft light" x y = 2 * x * y + x ^ 2 * (1 - 2 * y) from rfl]) A B)
  · rw [show blend_images A B "hard light" r
        = .ok (addB (smulB (1 - r) A) (smulB r (batchZip
            (fun x y => 2 * x * y + (1 - 2 * x) * (1 - y)) A B))) from rfl,
      blend_arm_fused]
    exact congrArg Except.ok (batchZip_congr _ _
      (fun x y => by
        rw [show blendSpecVal "hard light" x y = 2 * x * y + (1 - 2 * x) * (1 - y) from rfl]) A B)
  · rw [show blend_images A B "lighten" r
        = .ok (addB (smulB (1 - r) A) (smulB r (batchZip (fun x y => max x y) A B))) from rfl,
      blend_arm_fused]
    exact congrArg Except.ok (batchZip_congr _ _
      (fun x y => by rw [show blendSpecVal "lighten" x y = max x y from rfl]) A B)
  · rw [show blend_images A B "darken" r
        = .ok (addB (smulB (1 - r) A) (smulB r (batchZip (fun x y => min x y) A B))) from rfl,
      blend_arm_fused]
    exact congrArg Except.ok (batchZip_congr _ _
      (fun x y => by rw [show blendSpecVal "darken" x y = min x y from rfl]) A B)

/-- Witness for C3: concrete evaluation at mode "overlay", single-pixel
images, rate 1/2. -/
theorem blend_images_matches_documented_formula_witness :
    blend_images [[(1/4, 3/4, 0)]] [[(1/2, 1/2, 1)]] "overlay" (1/2) =
      .ok (batchZip (fun a b => (1 - (1/2 : ℚ)) * a + (1/2) * blendSpecVal "overlay" a b)
        [[(1/4, 3/4, 0)]] [[(1/2, 1/2, 1)]]) :=
  blend_images_matches_documented_formula [[(1/4, 3/4, 0)]] [[(1/2, 1/2, 1)]]
    (1/2) "overlay" (by decide)

/-! ## Structured Noise Synthesizer (`YANCNoiseFromImage.do_it`) -/

/-- All scalar values of a batched image tensor, flattened. -/
def flattenVals (b : Batch) : List ℚ :=
  b.flatMap (fun img => img.flatMap (fun p => [p.1, p.2.1, p.2.2]))

/-- `torch.max(t)`: the largest scalar in the tensor (the tensor is nonempty
whenever the source evaluates it; the default for an empty tensor is
irrelevant to every claim). -/
def batchMaxVal (b : Batch) : ℚ :=
  (flattenVals b).foldl max ((flattenVals b).headD 0)

/-- `tensor / scalar` (elementwise). -/
def divB (b : Batch) (m : ℚ) : Batch := batchMap (fun v => v / m) b

/-- The batch-folding loop of `YANCNoiseFromImage.do_it`:
`for i in range(1, N): blended = blend_images(blended, image[i:i+1], …);`
`blended /= torch.max(blended)`.  A `ValueError` from `blend_images`
propagates. -/
def foldBlendLoop (blend_mode : String) (blend_rate : ℚ) :
    Batch → List Img → Except String Batch
  | acc, [] => .ok acc
  | acc, img :: rest =>
    match blend_images acc [img] blend_mode blend_rate with
    | .error e => .error e
    | .ok b => foldBlendLoop blend_mode blend_rate (divB b (batchMaxVal b)) rest

/-- Mean of one channel (selected by `f`) across the whole batch:
`torch.mean(image[:, c, :, :])`. -/
def channelMean (f : Pixel → ℚ) (b : Batch) : ℚ :=
  ((b.flatMap id).map f).sum / ((b.flatMap id).length : ℚ)

/-- The Synthesizer's random / external collaborators.  The Synthesizer's
random draws are unseeded in the source; each draw or torchvision transform
is therefore a parameter of the model:
* `gauss i j` — the `torch.randn_like` draw for batch index `i`, pixel `j`
  (so the drawn tensor has the shape of its argument, as `randn_like` does);
* `elastic alpha sigma fill` — `T.ElasticTransform(alpha, sigma, fill=fill)`
  applied to a tensor;
* `adjustSaturation t f` — `F.adjust_saturation(t, saturation_factor=f)`;
* `randomResizedCrop factor` — `T.RandomResizedCrop(size=(H//factor, W//factor))`;
* `resizeBack` — `T.Resize(size=(H, W))` back to full resolution;
* `vaeEncode` — the codec collaborator `vae_opt.encode`. -/
structure NoiseEnv where
  gauss : ℕ → ℕ → Pixel
  elastic : ℚ → ℚ → Pixel → Batch → Batch
  adjustSaturation : Batch → ℚ → Batch
  randomResizedCrop : ℕ → Batch → Batch
  resizeBack : Batch → Batch
  vaeEncode : Batch → List ℚ

/-- `torch.randn_like(image)`: a Gaussian draw with the argument's shape. -/
def randnLike (env : NoiseEnv) (b : Batch) : Batch :=
  b.mapIdx (fun i img => img.mapIdx (fun j _ => env.gauss i j))

/-- The elastic-warped (and, when `saturation_correction ≠ 1.0`,
saturation-adjusted) image: lines 1075-1087 of yanc.py.  The border fill
value is the image's per-channel mean colour. -/
def warpedImage (env : NoiseEnv) (image : Batch)
    (magnitude smoothness saturation_correction : ℚ) : Batch :=
  let fill : Pixel :=
    (channelMean (fun p => p.1) image, channelMean (fun p => p.2.1) image,
      channelMean (fun p => p.2.2) image)
  let transformed_img := env.elastic magnitude smoothness fill image
  if saturation_correction ≠ 1 then
    env.adjustSaturation transformed_img saturation_correction
  else transformed_img

/-- `YANCNoiseFromImage.do_it` (yanc.py lines 1044-1113).  Layout moves
(`movedim`, `squeeze`, `permute`) are value-preserving and elided; the
channel-truncation `[:, :, :, :3]` is the identity on the 3-channel pixel
model; `2.25` is the exact float `9/4`.  `vae_opt` is modelled as a flag
selecting the `vaeEncode` collaborator. -/
def YANCNoiseFromImage_do_it (env : NoiseEnv) (image : Batch)
    (magnitude smoothness noise_intensity : ℚ) (noise_resize_factor : ℕ)
    (noise_blend_rate saturation_correction : ℚ) (blend_mode : String)
    (blend_rate : ℚ) (vae_opt : Bool := false) :
    Except String (Batch × Option (List ℚ)) :=
  let noise_blend_rate' := noise_blend_rate / (9/4)
  let foldedE : Except String Batch :=
    if blend_mode ≠ "off" then
      foldBlendLoop blend_mode blend_rate (image.take 1) (image.drop 1)
    else .ok image
  match foldedE with
  | .error e => .error e
  | .ok image' =>
    let noisy_image := batchMap (fun v => v * noise_intensity) (randnLike env image')
    let transformed_img := warpedImage env image' magnitude smoothness saturation_correction
    let resized_img :=
      if noise_resize_factor > 0 then
        env.resizeBack (env.randomResizedCrop noise_resize_factor noisy_image)
      else noisy_image
    let result := addB transformed_img (batchMap (fun v => v * noise_blend_rate') resized_img)
    let latent := if vae_opt then some (env.vaeEncode result) else none
    .ok (result, latent)

/-- Spatial shape of a batch, abstracted to per-image pixel counts. -/
def batchShape (b : Batch) : List ℕ := b.map List.length

lemma blend_images_unsupported (a b : Batch) (r : ℚ) (mode : String)
    (hmode : mode ∉ ["multiply", "add", "overlay", "soft light",
      "hard light", "lighten", "darken"]) :
    blend_images a b mode r = .error "Unsupported blend mode" := by
  simp only [List.mem_cons, List.not_mem_nil, or_false, not_or] at hmode
  obtain ⟨h1, h2, h3, h4, h5, h6, h7⟩ := hmode
  simp [blend_images, h1, h2, h3, h4, h5, h6, h7]

lemma mapIdx_shape (f : ℕ → Img → Img)
    (hf : ∀ i img, (f i img).length = img.length) :
    ∀ b : Batch, (b.mapIdx f).map List.length = b.map List.length := by
  intro b
  induction b generalizing f with
  | nil => rfl
  | cons img rest ih =>
    rw [List.mapIdx_cons]
    simp only [List.map_cons, List.cons.injEq]
    exact ⟨hf 0 img, ih (fun i => f (i + 1)) (fun i im => hf (i + 1) im)⟩

lemma randnLike_shape (env : NoiseEnv) (b : Batch) :
    batchShape (randnLike env b) = batchShape b := by
  unfold randnLike batchShape
  exact mapIdx_shape _ (fun i img => List.length_mapIdx) b

lemma batchMap_shape (f : ℚ → ℚ) (b : Batch) :
    batchShape (batchMap f b) = batchShape b := by
  simp [batchShape, batchMap, List.map_map, Function.comp_def]

lemma zipWith_add_map_mul_zero (i : Img) :
    ∀ j : Img, i.length = j.length →
      List.zipWith (pixZip (fun x y => x + y)) i (List.map (pixMap (fun v => v * 0)) j) = i := by
  induction i with
  | nil => intro j _; rfl
  | cons p ps ihp =>
    intro j hlen
    cases j with
    | nil => simp at hlen
    | cons q qs =>
      simp only [List.length_cons, Nat.succ.injEq] at hlen
      simp only [List.map_cons, List.zipWith_cons_cons, List.cons.injEq]
      exact ⟨by simp [pixZip, pixMap], ihp qs hlen⟩

/-- Adding an (elementwise) `· * 0` tensor of the same shape is the
identity. -/
lemma addB_mul_zero_right (t : Batch) :
    ∀ w : Batch, batchShape t = batchShape w →
      addB t (batchMap (fun v => v * 0) w) = t := by
  induction t with
  | nil => intro w _; rfl
  | cons i rest ih =>
    intro w h
    cases w with
    | nil => simp [batchShape] at h
    | cons j wrest =>
      simp only [batchShape, List.map_cons, List.cons.injEq] at h
      simp only [addB, batchZip, batchMap, List.map_cons, List.zipWith_cons_cons,
        List.cons.injEq]
      refine ⟨zipWith_add_map_mul_zero i j h.1, ?_⟩
      have := ih wrest h.2
      simpa [addB, batchZip, batchMap] using this

/-- A concrete collaborator environment for evaluations: identity
transforms, zero Gaussian draws. -/
def nEnv0 : NoiseEnv :=
  { gauss := fun _ _ => (0, 0, 0)
    elastic := fun _ _ _ b => b
    adjustSaturation := fun b _ => b
    randomResizedCrop := fun _ b => b
    resizeBack := fun b => b
    vaeEncode := fun _ => [] }

/-- On a single-image batch the Synthesizer never fails: the blend fold
`for i in range(1, N)` is empty, so `blend_images` — the only raise site —
is never called. -/
lemma noiseFromImage_single_isOk (env : NoiseEnv) (img : Img)
    (magnitude smoothness noise_intensity : ℚ) (noise_resize_factor : ℕ)
    (noise_blend_rate saturation_correction : ℚ) (blend_mode : String)
    (blend_rate : ℚ) (vae_opt : Bool) :
    (YANCNoiseFromImage_do_it env [img] magnitude smoothness noise_intensity
      noise_resize_factor noise_blend_rate saturation_correction blend_mode
      blend_rate vae_opt).isOk = true := by
  unfold YANCNoiseFromImage_do_it
  by_cases h : blend_mode ≠ "off"
  · rw [if_pos h]; rfl
  · rw [if_neg h]; rfl

/-- C8 counterexample: with a single-image batch, the unsupported
`blend_mode` value "bogus" raises nothing — `YANCNoiseFromImage.do_it`
runs to completion and returns a result (`isOk`), contradicting
"a configuration error is raised immediately" for every invocation with an
unsupported mode. -/
theorem noiseFromImage_unsupported_mode_no_error_NEq1 :
    ("bogus" ∉ ["off", "multiply", "add", "overlay", "soft light",
      "hard light", "lighten", "darken"]) ∧
    (YANCNoiseFromImage_do_it nEnv0 [[(1/2, 1/2, 1/2)]] 210 3 1 2 0 1
      "bogus" (1/4) false).isOk = true :=
  ⟨by decide, noiseFromImage_single_isOk nEnv0 [(1/2, 1/2, 1/2)] 210 3 1 2 0 1
    "bogus" (1/4) false⟩

/-- C8 amended: invoking the Structured Noise Synthesizer with a
`blend_mode` outside the supported set raises the configuration error
`ValueError("Unsupported blend mode")` — before any noise drawing or
warping — whenever the batch has at least two images (so the blend fold
executes); with a single-image batch the blend fold is skipped and no
error is raised. -/
theorem noiseFromImage_unsupported_mode_error (env : NoiseEnv)
    (i1 i2 : Img) (rest : List Img)
    (magnitude smoothness noise_intensity : ℚ) (noise_resize_factor : ℕ)
    (noise_blend_rate saturation_correction : ℚ) (blend_mode : String)
    (blend_rate : ℚ) (vae_opt : Bool)
    (hmode : blend_mode ∉ ["off", "multiply", "add", "overlay", "soft light",
      "hard light", "lighten", "darken"]) :
    YANCNoiseFromImage_do_it env (i1 :: i2 :: rest) magnitude smoothness
      noise_intensity noise_resize_factor noise_blend_rate
      saturation_correction blend_mode blend_rate vae_opt =
      .error "Unsupported blend mode" := by
  simp only [List.mem_cons, List.not_mem_nil, or_false, not_or] at hmode
  have hoff : ¬ blend_mode = "off" := hmode.1
  have h7 : blend_mode ∉ ["multiply", "add", "overlay", "soft light",
      "hard light", "lighten", "darken"] := by
    simp only [List.mem_cons, List.not_mem_nil, or_false, not_or]
    exact hmode.2
  have hfold : foldBlendLoop blend_mode blend_rate [i1] (i2 :: rest) =
      .error "Unsupported blend mode" := by
    simp only [foldBlendLoop]
    rw [blend_images_unsupported [i1] [i2] blend_rate blend_mode h7]
  simp only [YANCNoiseFromImage_do_it, List.take_succ_cons, List.take_zero,
    List.drop_succ_cons, List.drop_zero, ne_eq, hoff, not_false_eq_true,
    if_true, hfold]

/-- Witness for C8's amended theorem: a two-image batch with mode "bogus"
does raise the configuration error. -/
theorem noiseFromImage_unsupported_mode_error_witness :
    YANCNoiseFromImage_do_it nEnv0 [[(0, 0, 0)], [(1, 1, 1)]] 210 3 1 2 0 1
      "bogus" (1/4) false = .error "Unsupported blend mode" :=
  noiseFromImage_unsupported_mode_error nEnv0 [(0, 0, 0)] [(1, 1, 1)] [] 210 3 1 2
    0 1 "bogus" (1/4) false (by decide)

/-- C9: for a single-image batch with `blend_mode = "off"`,
`noise_resize_factor = 0` and `noise_blend_rate = 0`, the Synthesizer's
returned noise field exactly equals the elastic-warped (and, when
`saturation_correction ≠ 1.0`, saturation-adjusted) image `warpedImage …`,
with zero contribution from the Gaussian noise tensor.  The two
hypotheses are the collaborator shape contracts: `T.ElasticTransform` and
`F.adjust_saturation` preserve tensor shape. -/
theorem noiseFromImage_off_equals_warped (env : NoiseEnv) (img : Img)
    (magnitude smoothness noise_intensity saturation_correction blend_rate : ℚ)
    (hE : ∀ a s f b, batchShape (env.elastic a s f b) = batchShape b)
    (hS : ∀ b s, batchShape (env.adjustSaturation b s) = batchShape b) :
    YANCNoiseFromImage_do_it env [img] magnitude smoothness noise_intensity 0 0
      saturation_correction "off" blend_rate =
      .ok (warpedImage env [img] magnitude smoothness saturation_correction, none) := by
  have hshape : batchShape (warpedImage env [img] magnitude smoothness saturation_correction)
      = batchShape (batchMap (fun v => v * noise_intensity) (randnLike env [img])) := by
    rw [batchMap_shape, randnLike_shape]
    unfold warpedImage
    by_cases hs : saturation_correction ≠ 1
    · rw [if_pos hs, hS, hE]
    · rw [if_neg hs, hE]
  simp only [YANCNoiseFromImage_do_it, ne_eq, not_true_eq_false, if_false,
    Nat.lt_irrefl]
  rw [show (fun v : ℚ => v * (0 / (9/4))) = (fun v : ℚ => v * 0) by funext v; norm_num]
  rw [addB_mul_zero_right _ _ hshape]
  simp

/-- Witness for C9: concrete single-image run with identity collaborators
and `saturation_correction = 1/2`. -/
theorem noiseFromImage_off_equals_warped_witness :
    YANCNoiseFromImage_do_it nEnv0 [[(1, 2, 3)]] 210 3 1 0 0 (1/2) "off" (1/4) =
      .ok (warpedImage nEnv0 [[(1, 2, 3)]] 210 3 (1/2), none) :=
  noiseFromImage_off_equals_warped nEnv0 [(1, 2, 3)] 210 3 1 (1/2) (1/4)
    (fun _ _ _ _ => rfl) (fun _ _ => rfl)

/-! ## Staged Injection Sampler (`YANCNIKSampler.do_it`) -/

/-- Python's argument-free `round` on exact values: nearest integer, ties
to even (banker's rounding). -/
def roundHalfEven (q : ℚ) : ℤ :=
  let n := ⌊q⌋
  let frac := q - (n : ℚ)
  if frac < 1/2 then n
  else if 1/2 < frac then n + 1
  else if n % 2 = 0 then n else n + 1

/-- Python's `round(x, 1)` for `x` the exact rational value of a binary64
float.  `10 * x` is then never an exact half-integer (a dyadic rational
cannot have denominator 20), so nearest rounding of `10 * x` agrees with
Python's correctly rounded decimal rounding, and the program's comparison
`round(cfg_noise, 1) > 8.0` is unaffected by re-representing `k/10` as the
nearest double (the gap to 8.0 dwarfs half an ulp). -/
def pyRound1 (q : ℚ) : ℚ := (roundHalfEven (10 * q) : ℚ) / 10

/-- A latent `samples` tensor, flattened to its element list (the source
only compares shapes for equality and resizes to the other operand's
shape, so shape is abstracted to element count). -/
abbrev Tensor := List ℚ

/-- A mask tensor (opaque to the sampler: only passed to `composite`). -/
abbrev Mask := List ℚ

/-- `torch.all(t)`: true iff every element is truthy (non-zero). -/
def torchAll (t : Tensor) : Bool := t.all (fun v => decide (v ≠ 0))

/-- The emptiness test of `YANCNIKSampler.do_it` (yanc.py line 961):
`empty_latent = False if torch.all(latent_image["samples"]) != 0 else True`.
`torch.all(s) != 0` holds iff the all-reduction is `True`, i.e. iff every
element of `s` is non-zero; so `empty_latent` is true iff SOME element is
zero. -/
def emptyLatentCheck (t : Tensor) : Bool :=
  if torchAll t = true then false else true

lemma emptyLatentCheck_eq_not_torchAll (t : Tensor) :
    emptyLatentCheck t = !torchAll t := by
  unfold emptyLatentCheck
  cases torchAll t <;> simp

/-- A model handle: opaque base weights plus the optional sampler-cfg
function installed by `set_model_sampler_cfg_function`, identified by the
`multiplier` the `rescale_cfg` closure captures (no claim depends on the
closure's tensor arithmetic, which lives in the Denoiser's numeric space). -/
structure Model where
  base : ℕ
  cfgMultiplier : Option ℚ
deriving DecidableEq

/-- `patch(model, multiplier)` (yanc.py lines 120-147): `m = model.clone()`,
install `rescale_cfg` on `m`, return the 1-tuple `(m, )`.  The clone is a
new record; the argument is untouched (the source never mutates the
original handle). -/
def patch (model : Model) (multiplier : ℚ) : Model × Unit :=
  ({ model with cfgMultiplier := some multiplier }, ())

/-- One `nodes.common_ksampler` invocation with every argument the source
passes; `start_step`/`last_step` are `none` when the source leaves the
Python defaults (`None`). Conditioning and sampler/scheduler selectors are
opaque naturals. -/
structure KCall where
  model : Model
  seed : ℕ
  steps : ℕ
  cfg : ℚ
  sampler_name : ℕ
  scheduler : ℕ
  positive : ℕ
  negative : ℕ
  latent : Tensor
  denoise : ℚ
  disable_noise : Bool
  start_step : Option ℤ
  last_step : Option ℤ
  force_full_denoise : Bool
deriving DecidableEq

/-- Python heap of latent-dict objects: `dictOf d` is the `samples` tensor
bound in dict `d`, `nextD` the next fresh dict id.  Tensors are modelled
by value: no line of `YANCNIKSampler.do_it` mutates a tensor in place
(every assignment is a dict-entry write `lat["samples"] = …`, and `clone()`
defensively copies before the collaborator `composite` writes), so only
dict objects need identity. -/
structure Heap where
  dictOf : ℕ → Tensor
  nextD : ℕ

/-- Allocate a fresh latent dict holding tensor `t` (a `latent.copy()` or a
fresh collaborator result). -/
def allocD (h : Heap) (t : Tensor) : Heap × ℕ :=
  ({ dictOf := Function.update h.dictOf h.nextD t, nextD := h.nextD + 1 }, h.nextD)

/-- `lat["samples"] = t`: mutate dict `d` in place. -/
def writeD (h : Heap) (d : ℕ) (t : Tensor) : Heap :=
  { h with dictOf := Function.update h.dictOf d t }

/-- The sampler's collaborators: the Denoiser (`nodes.common_ksampler`,
whose fresh output latent's `samples` the model returns), the resampler
(`comfy.utils.common_upscale`, to a target element count, `'bicubic'`,
`crop='center'`), and the mask-composite primitive
(`comfyui masks.composite(destination, source, x, y, mask, 8)` as a value
function — at its only call site the destination is a fresh clone). -/
structure SamplerEnv where
  ksampler : KCall → Tensor
  commonUpscale : Tensor → ℕ → Tensor
  composite : Tensor → Tensor → ℕ → ℕ → Mask → ℕ → Tensor

/-- `YANCNIKSampler.do_it` (yanc.py lines 956-1012).  Returns the final
heap, the trace of Denoiser invocations in order, and either the returned
latent-dict id or the raised exception.  Notes tied to source lines:
* 958: `inject_at_step = round(steps * inject_time)` (ties to even);
* 961: the emptiness test (`emptyLatentCheck`);
* 965: Phase A — `start_step=0, last_step=inject_at_step,
  force_full_denoise=True`;
* 971: with a mask over an "empty" latent, a second full pass with
  `denoise=1.0` and the `common_ksampler` defaults
  (`start_step=None, last_step=None, force_full_denoise=False`);
* 974: the `[0]` tuple indexing is elided (calls are modelled by their
  output latent directly);
* 976-978: with a mask over a non-"empty" latent the base becomes
  `latent_image.copy()` with cloned samples — a fresh dict;
* 980-981: `samples_out = latent_image.copy()`, samples cloned;
* 983-984: `latent_noise.copy()` raises on an absent input — modelled as
  the exception value; with input present, `samples_noise` is the cloned
  noise tensor;
* 986-990: shape reconciliation (the two bare `permute` calls return
  unassigned values: no-ops);
* 992-995: the blend, written into `samples_out`;
* 997-998: guidance-rescale patching iff `round(cfg_noise, 1) > 8.0`,
  multiplier `0.65 = 65/100`;
* 1001-1002: Phase B — `cfg_noise`, `start_step=inject_at_step,
  last_step=steps, force_full_denoise=False, disable_noise=False`;
* 1004-1010: masked compositing into the Phase B result dict, destination
  a clone of `latent_image` (non-"empty") or of the fallback output
  ("empty"; the unreachable read default is 0). -/
def YANCNIKSampler_do_it (env : SamplerEnv) (h0 : Heap) (model : Model)
    (seed steps : ℕ) (cfg cfg_noise : ℚ)
    (sampler_name scheduler positive negative : ℕ)
    (latent_image : ℕ) (noise_strength : ℚ) (latent_noise : Option ℕ)
    (inject_time : ℚ := 1/2) (denoise : ℚ := 1) (mask : Option Mask := none) :
    Heap × List KCall × Except String ℕ :=
  let inject_at_step : ℤ := roundHalfEven ((steps : ℚ) * inject_time)
  let empty_latent : Bool := emptyLatentCheck (h0.dictOf latent_image)
  let callA : KCall :=
    { model := model, seed := seed, steps := steps, cfg := cfg,
      sampler_name := sampler_name, scheduler := scheduler,
      positive := positive, negative := negative,
      latent := h0.dictOf latent_image, denoise := denoise,
      disable_noise := false, start_step := some 0,
      last_step := some inject_at_step, force_full_denoise := true }
  let p1 := allocD h0 (env.ksampler callA)
  let h1 := p1.1
  let baseRef := p1.2
  let callF : KCall :=
    { model := model, seed := seed, steps := steps, cfg := cfg,
      sampler_name := sampler_name, scheduler := scheduler,
      positive := positive, negative := negative,
      latent := h1.dictOf latent_image, denoise := 1,
      disable_noise := false, start_step := none,
      last_step := none, force_full_denoise := false }
  let p2 :=
    if mask.isSome && empty_latent then
      let q := allocD h1 (env.ksampler callF)
      (q.1, [callA, callF], some q.2)
    else (h1, [callA], (none : Option ℕ))
  let h2 := p2.1
  let trace2 := p2.2.1
  let fbRef := p2.2.2
  let p3 :=
    if mask.isSome && !empty_latent then allocD h2 (h2.dictOf latent_image)
    else (h2, baseRef)
  let h3 := p3.1
  let baseRef2 := p3.2
  let p4 := allocD h3 (h3.dictOf latent_image)
  let h4 := p4.1
  let outRef := p4.2
  match latent_noise with
  | none =>
    (h4, trace2, .error "AttributeError: NoneType object has no attribute copy")
  | some ln =>
    let samples_noise := h4.dictOf ln
    let samples_noise :=
      if (h4.dictOf baseRef2).length ≠ samples_noise.length then
        env.commonUpscale samples_noise (h4.dictOf baseRef2).length
      else samples_noise
    let samples_o := (h4.dictOf baseRef2).map (fun v => v * (1 - noise_strength))
    let samples_n := samples_noise.map (fun v => v * noise_strength)
    let h5 := writeD h4 outRef (List.zipWith (fun a b => a + b) samples_o samples_n)
    let patched_model :=
      if pyRound1 cfg_noise > 8 then (patch model (65/100)).1 else model
    let callB : KCall :=
      { model := patched_model, seed := seed, steps := steps, cfg := cfg_noise,
        sampler_name := sampler_name, scheduler := scheduler,
        positive := positive, negative := negative,
        latent := h5.dictOf outRef, denoise := denoise,
        disable_noise := false, start_step := some inject_at_step,
        last_step := some (steps : ℤ), force_full_denoise := false }
    let p6 := allocD h5 (env.ksampler callB)
    let h6 := p6.1
    let resRef := p6.2
    match mask with
    | none => (h6, trace2 ++ [callB], .ok resRef)
    | some m =>
      let destination :=
        if !empty_latent then h6.dictOf latent_image
        else h6.dictOf (fbRef.getD 0)
      let source := h6.dictOf resRef
      let h7 := writeD h6 resRef (env.composite destination source 0 0 m 8)
      (h7, trace2 ++ [callB], .ok resRef)

lemma nik_none_error (env : SamplerEnv) (h0 : Heap) (model : Model)
    (seed steps : ℕ) (cfg cfg_noise : ℚ)
    (sampler_name scheduler positive negative : ℕ)
    (latent_image : ℕ) (noise_strength : ℚ)
    (inject_time denoise : ℚ) (mask : Option Mask) :
    (YANCNIKSampler_do_it env h0 model seed steps cfg cfg_noise sampler_name
      scheduler positive negative latent_image noise_strength none
      inject_time denoise mask).2.2 =
      .error "AttributeError: NoneType object has no attribute copy" := by
  simp [YANCNIKSampler_do_it]

lemma nik_trace_head (env : SamplerEnv) (h0 : Heap) (model : Model)
    (seed steps : ℕ) (cfg cfg_noise : ℚ)
    (sampler_name scheduler positive negative : ℕ)
    (latent_image : ℕ) (noise_strength : ℚ) (latent_noise : Option ℕ)
    (inject_time denoise : ℚ) (mask : Option Mask) :
    (YANCNIKSampler_do_it env h0 model seed steps cfg cfg_noise sampler_name
      scheduler positive negative latent_image noise_strength latent_noise
      inject_time denoise mask).2.1.head? =
      some
        { model := model, seed := seed, steps := steps, cfg := cfg,
          sampler_name := sampler_name, scheduler := scheduler,
          positive := positive, negative := negative,
          latent := h0.dictOf latent_image, denoise := denoise,
          disable_noise := false, start_step := some 0,
          last_step := some (roundHalfEven ((steps : ℚ) * inject_time)),
          force_full_denoise := true } := by
  rcases mask with _ | m <;>
    rcases latent_noise with _ | ln <;>
      by_cases hemp : emptyLatentCheck (h0.dictOf latent_image) = true <;>
        simp [YANCNIKSampler_do_it, hemp]

lemma nik_trace_length (env : SamplerEnv) (h0 : Heap) (model : Model)
    (seed steps : ℕ) (cfg cfg_noise : ℚ)
    (sampler_name scheduler positive negative : ℕ)
    (latent_image : ℕ) (noise_strength : ℚ) (ln : ℕ)
    (inject_time denoise : ℚ) (mask : Option Mask) :
    (YANCNIKSampler_do_it env h0 model seed steps cfg cfg_noise sampler_name
      scheduler positive negative latent_image noise_strength (some ln)
      inject_time denoise mask).2.1.length =
      if mask.isSome && emptyLatentCheck (h0.dictOf latent_image) then 3 else 2 := by
  rcases mask with _ | m <;>
    by_cases hemp : emptyLatentCheck (h0.dictOf latent_image) = true <;>
      simp [YANCNIKSampler_do_it, hemp]

/-- The Phase A Denoiser call (yanc.py line 965). -/
def nikCallA (h0 : Heap) (model : Model) (seed steps : ℕ) (cfg : ℚ)
    (sampler_name scheduler positive negative : ℕ) (latent_image : ℕ)
    (inject_time denoise : ℚ) : KCall :=
  { model := model, seed := seed, steps := steps, cfg := cfg,
    sampler_name := sampler_name, scheduler := scheduler,
    positive := positive, negative := negative,
    latent := h0.dictOf latent_image, denoise := denoise,
    disable_noise := false, start_step := some 0,
    last_step := some (roundHalfEven ((steps : ℚ) * inject_time)),
    force_full_denoise := true }

/-- The fallback full-denoise Denoiser call (yanc.py line 971). -/
def nikCallF (h0 : Heap) (model : Model) (seed steps : ℕ) (cfg : ℚ)
    (sampler_name scheduler positive negative : ℕ) (latent_image : ℕ) : KCall :=
  { model := model, seed := seed, steps := steps, cfg := cfg,
    sampler_name := sampler_name, scheduler := scheduler,
    positive := positive, negative := negative,
    latent := h0.dictOf latent_image, denoise := 1,
    disable_noise := false, start_step := none,
    last_step := none, force_full_denoise := false }

/-- The base latent of the blend: Phase A's output, unless a mask is
supplied and the `empty_latent` test is false, in which case the cloned
`latent_image` (yanc.py lines 974-978). -/
def nikBase (env : SamplerEnv) (h0 : Heap) (model : Model) (seed steps : ℕ)
    (cfg : ℚ) (sampler_name scheduler positive negative : ℕ)
    (latent_image : ℕ) (inject_time denoise : ℚ) (mask : Option Mask) : Tensor :=
  if mask.isSome && !emptyLatentCheck (h0.dictOf latent_image) then
    h0.dictOf latent_image
  else
    env.ksampler (nikCallA h0 model seed steps cfg sampler_name scheduler
      positive negative latent_image inject_time denoise)

/-- The (possibly shape-reconciled) noise tensor (yanc.py lines 983-990). -/
def nikNoise (env : SamplerEnv) (h0 : Heap) (model : Model) (seed steps : ℕ)
    (cfg : ℚ) (sampler_name scheduler positive negative : ℕ)
    (latent_image : ℕ) (ln : ℕ) (inject_time denoise : ℚ)
    (mask : Option Mask) : Tensor :=
  let base := nikBase env h0 model seed steps cfg sampler_name scheduler
    positive negative latent_image inject_time denoise mask
  if base.length ≠ (h0.dictOf ln).length then
    env.commonUpscale (h0.dictOf ln) base.length
  else h0.dictOf ln

/-- The injected latent handed to Phase B:
`base * (1 - noise_strength) + noise * noise_strength`
(yanc.py lines 992-995). -/
def nikBlend (env : SamplerEnv) (h0 : Heap) (model : Model) (seed steps : ℕ)
    (cfg : ℚ) (sampler_name scheduler positive negative : ℕ)
    (latent_image : ℕ) (noise_strength : ℚ) (ln : ℕ)
    (inject_time denoise : ℚ) (mask : Option Mask) : Tensor :=
  List.zipWith (fun a b => a + b)
    ((nikBase env h0 model seed steps cfg sampler_name scheduler positive
        negative latent_image inject_time denoise mask).map
      (fun v => v * (1 - noise_strength)))
    ((nikNoise env h0 model seed steps cfg sampler_name scheduler positive
        negative latent_image ln inject_time denoise mask).map
      (fun v => v * noise_strength))

/-- The model handed to Phase B: patched with multiplier `0.65` iff
`round(cfg_noise, 1) > 8.0` (yanc.py lines 997-998). -/
def nikModelB (model : Model) (cfg_noise : ℚ) : Model :=
  if pyRound1 cfg_noise > 8 then (patch model (65/100)).1 else model

/-- The Phase B Denoiser call (yanc.py lines 1001-1002). -/
def nikCallB (env : SamplerEnv) (h0 : Heap) (model : Model) (seed steps : ℕ)
    (cfg cfg_noise : ℚ) (sampler_name scheduler positive negative : ℕ)
    (latent_image : ℕ) (noise_strength : ℚ) (ln : ℕ)
    (inject_time denoise : ℚ) (mask : Option Mask) : KCall :=
  { model := nikModelB model cfg_noise, seed := seed, steps := steps,
    cfg := cfg_noise, sampler_name := sampler_name, scheduler := scheduler,
    positive := positive, negative := negative,
    latent := nikBlend env h0 model seed steps cfg sampler_name scheduler
      positive negative latent_image noise_strength ln inject_time denoise mask,
    denoise := denoise, disable_noise := false,
    start_step := some (roundHalfEven ((steps : ℚ) * inject_time)),
    last_step := some (steps : ℤ), force_full_denoise := false }

/-- The samples of the returned latent: Phase B's output, composited
through the mask when one is supplied (yanc.py lines 1004-1012). -/
def nikResult (env : SamplerEnv) (h0 : Heap) (model : Model) (seed steps : ℕ)
    (cfg cfg_noise : ℚ) (sampler_name scheduler positive negative : ℕ)
    (latent_image : ℕ) (noise_strength : ℚ) (ln : ℕ)
    (inject_time denoise : ℚ) (mask : Option Mask) : Tensor :=
  let phaseB := env.ksampler (nikCallB env h0 model seed steps cfg cfg_noise
    sampler_name scheduler positive negative latent_image noise_strength ln
    inject_time denoise mask)
  match mask with
  | none => phaseB
  | some m =>
    env.composite
      (if emptyLatentCheck (h0.dictOf latent_image) then
        env.ksampler (nikCallF h0 model seed steps cfg sampler_name scheduler
          positive negative latent_image)
      else h0.dictOf latent_image)
      phaseB 0 0 m 8

/-- Full characterization of a `YANCNIKSampler.do_it` run with
`latent_noise` supplied: the Denoiser-call trace, the returned dict and
its samples.  The two hypotheses say the input latent dicts are live
(allocated) in the entry heap. -/
lemma nik_some_spec (env : SamplerEnv) (h0 : Heap) (model : Model)
    (seed steps : ℕ) (cfg cfg_noise : ℚ)
    (sampler_name scheduler positive negative : ℕ)
    (latent_image : ℕ) (noise_strength : ℚ) (ln : ℕ)
    (inject_time denoise : ℚ) (mask : Option Mask)
    (hL : latent_image < h0.nextD) (hln : ln < h0.nextD) :
    (YANCNIKSampler_do_it env h0 model seed steps cfg cfg_noise sampler_name
      scheduler positive negative latent_image noise_strength (some ln)
      inject_time denoise mask).2.1 =
      (if mask.isSome && emptyLatentCheck (h0.dictOf latent_image) then
        [nikCallA h0 model seed steps cfg sampler_name scheduler positive
          negative latent_image inject_time denoise,
         nikCallF h0 model seed steps cfg sampler_name scheduler positive
          negative latent_image,
         nikCallB env h0 model seed steps cfg cfg_noise sampler_name scheduler
          positive negative latent_image noise_strength ln inject_time denoise mask]
      else
        [nikCallA h0 model seed steps cfg sampler_name scheduler positive
          negative latent_image inject_time denoise,
         nikCallB env h0 model seed steps cfg cfg_noise sampler_name scheduler
          positive negative latent_image noise_strength ln inject_time denoise mask]) ∧
    (YANCNIKSampler_do_it env h0 model seed steps cfg cfg_noise sampler_name
      scheduler positive negative latent_image noise_strength (some ln)
      inject_time denoise mask).2.2 =
      .ok (if mask.isSome then h0.nextD + 3 else h0.nextD + 2) ∧
    (YANCNIKSampler_do_it env h0 model seed steps cfg cfg_noise sampler_name
      scheduler positive negative latent_image noise_strength (some ln)
      inject_time denoise mask).1.dictOf
        (if mask.isSome then h0.nextD + 3 else h0.nextD + 2) =
      nikResult env h0 model seed steps cfg cfg_noise sampler_name scheduler
        positive negative latent_image noise_strength ln inject_time denoise mask := by
  have e0 : latent_image ≠ h0.nextD := by omega
  have e1 : latent_image ≠ h0.nextD + 1 := by omega
  have e2 : latent_image ≠ h0.nextD + 2 := by omega
  have e2' : latent_image ≠ h0.nextD + 1 + 1 := by omega
  have e3 : latent_image ≠ h0.nextD + 3 := by omega
  have e3' : latent_image ≠ h0.nextD + 1 + 1 + 1 := by omega
  have l0 : ln ≠ h0.nextD := by omega
  have l1 : ln ≠ h0.nextD + 1 := by omega
  have l2 : ln ≠ h0.nextD + 2 := by omega
  have l2' : ln ≠ h0.nextD + 1 + 1 := by omega
  have d01 : h0.nextD ≠ h0.nextD + 1 := by omega
  have d02 : h0.nextD ≠ h0.nextD + 2 := by omega
  have d02' : h0.nextD ≠ h0.nextD + 1 + 1 := by omega
  have d03 : h0.nextD ≠ h0.nextD + 3 := by omega
  have d03' : h0.nextD ≠ h0.nextD + 1 + 1 + 1 := by omega
  have d12 : h0.nextD + 1 ≠ h0.nextD + 2 := by omega
  have d12' : h0.nextD + 1 ≠ h0.nextD + 1 + 1 := by omega
  have d13 : h0.nextD + 1 ≠ h0.nextD + 3 := by omega
  have d13' : h0.nextD + 1 ≠ h0.nextD + 1 + 1 + 1 := by omega
  have d23 : h0.nextD + 2 ≠ h0.nextD + 3 := by omega
  have d23' : h0.nextD + 1 + 1 ≠ h0.nextD + 1 + 1 + 1 := by omega
  rcases mask with _ | m <;>
    by_cases hemp : emptyLatentCheck (h0.dictOf latent_image) = true <;>
      simp [YANCNIKSampler_do_it, nikCallA, nikCallF, nikCallB, nikBase,
        nikNoise, nikBlend, nikModelB, nikResult, allocD, writeD, hemp,
        Function.update_apply, e0, e1, e2, e2', e3, e3', l0, l1, l2, l2',
        d01, d02, d02', d03, d03', d12, d12', d13, d13', d23, d23']

/-- Frame property: a `YANCNIKSampler.do_it` run never writes to the
caller's `latent_image` dict — every write targets a dict allocated during
the run. -/
lemma nik_preserves (env : SamplerEnv) (h0 : Heap) (model : Model)
    (seed steps : ℕ) (cfg cfg_noise : ℚ)
    (sampler_name scheduler positive negative : ℕ)
    (latent_image : ℕ) (noise_strength : ℚ) (latent_noise : Option ℕ)
    (inject_time denoise : ℚ) (mask : Option Mask)
    (hL : latent_image < h0.nextD) :
    (YANCNIKSampler_do_it env h0 model seed steps cfg cfg_noise sampler_name
      scheduler positive negative latent_image noise_strength latent_noise
      inject_time denoise mask).1.dictOf latent_image =
      h0.dictOf latent_image := by
  have e0 : latent_image ≠ h0.nextD := by omega
  have e1 : latent_image ≠ h0.nextD + 1 := by omega
  have e2 : latent_image ≠ h0.nextD + 2 := by omega
  have e2' : latent_image ≠ h0.nextD + 1 + 1 := by omega
  have e3 : latent_image ≠ h0.nextD + 3 := by omega
  have e3' : latent_image ≠ h0.nextD + 1 + 1 + 1 := by omega
  rcases latent_noise with _ | ln <;>
    rcases mask with _ | m <;>
      by_cases hemp : emptyLatentCheck (h0.dictOf latent_image) = true <;>
        simp [YANCNIKSampler_do_it, allocD, writeD, hemp,
          Function.update_apply, e0, e1, e2, e2', e3, e3']

lemma floor_q805 : ⌊(10 : ℚ) * ((4531747125041562 : ℚ) / 2 ^ 49)⌋ = 80 := by
  rw [Int.floor_eq_iff]
  norm_num

/-- `round(8.05, 1)` where `8.05` is the binary64 double
`4531747125041562 / 2^49` (slightly above the decimal 8.05): the result is
`8.1`, which exceeds 8.0 — the patch activates. -/
lemma pyRound1_d805 : pyRound1 ((4531747125041562 : ℚ) / 2 ^ 49) = 81 / 10 := by
  unfold pyRound1 roundHalfEven
  rw [floor_q805]
  norm_num

lemma floor_q80 : ⌊(10 : ℚ) * (8 : ℚ)⌋ = 80 := by
  rw [Int.floor_eq_iff]
  norm_num

/-- `round(8.0, 1) = 8.0`: the patch stays inactive. -/
lemma pyRound1_8 : pyRound1 (8 : ℚ) = 8 := by
  unfold pyRound1 roundHalfEven
  rw [floor_q80]
  norm_num

lemma roundHalfEven_15 : roundHalfEven ((30 : ℚ) * (1/2)) = 15 := by
  unfold roundHalfEven
  rw [show ⌊(30 : ℚ) * (1/2)⌋ = 15 by rw [Int.floor_eq_iff]; norm_num]
  norm_num

lemma roundHalfEven_33 : roundHalfEven ((10 : ℚ) * (33/100)) = 3 := by
  unfold roundHalfEven
  rw [show ⌊(10 : ℚ) * (33/100)⌋ = 3 by rw [Int.floor_eq_iff]; norm_num]
  norm_num

/-- A concrete model handle for evaluations. -/
def m0 : Model := { base := 0, cfgMultiplier := none }

/-- A concrete sampler collaborator environment: the Denoiser always
returns `[5, 5]`, upscaling and compositing are simple value functions. -/
def sEnv0 : SamplerEnv :=
  { ksampler := fun _ => [5, 5]
    commonUpscale := fun t _ => t
    composite := fun d _ _ _ _ _ => d }

/-- A concrete entry heap: dict 0 (the working latent) holds `[0, 1]` —
a latent containing both a zero and a non-zero value — and dict 1 (the
noise latent) holds `[2, 3]`. -/
def heap0 : Heap :=
  { dictOf := fun i => if i = 0 then [0, 1] else [2, 3]
    nextD := 2 }

/-- C1 (code bug): with a mask supplied and `latent_image = [0, 1]` — a
latent that contains a non-zero value, hence is NOT empty — the sampler
nevertheless takes the "empty latent" branch: the Denoiser-call trace has
length 3 (Phase A, the extra full-denoise fallback pass, Phase B), and the
`empty_latent` test evaluates to true.  The source's test
`torch.all(samples) != 0` (line 961) checks "all values non-zero", not
"all values zero": any latent containing a single zero is misclassified as
empty, contradicting the variable's own name and the log message
"You can avoid this step by providing a non empty latent." -/
theorem nik_empty_branch_code_bug :
    (emptyLatentCheck (heap0.dictOf 0) = true ∧
      (1 : ℚ) ∈ heap0.dictOf 0 ∧ (1 : ℚ) ≠ 0) ∧
    (YANCNIKSampler_do_it sEnv0 heap0 m0 0 10 8 8 0 0 0 0 0 (1/2) (some 1)
      (1/2) 1 (some [1])).2.1.length = 3 := by
  refine ⟨⟨?_, ?_, ?_⟩, ?_⟩
  · norm_num [heap0, emptyLatentCheck, torchAll]
  · norm_num [heap0]
  · norm_num
  · rw [nik_trace_length]
    norm_num [heap0, emptyLatentCheck, torchAll]

/-- C2 (code bug): when the optional `latent_noise` input is absent, the
sampler raises instead of degrading to a zero-strength blend: line 983
calls `latent_noise.copy()` unconditionally (and the `do_it` signature
gives `latent_noise` no default even though INPUT_TYPES declares it
optional), so the call fails after Phase A with an AttributeError
(TypeError if the argument is omitted entirely) — for every choice of the
other inputs. -/
theorem nik_missing_latent_noise_raises (env : SamplerEnv) (h0 : Heap)
    (model : Model) (seed steps : ℕ) (cfg cfg_noise : ℚ)
    (sampler_name scheduler positive negative : ℕ)
    (latent_image : ℕ) (noise_strength : ℚ)
    (inject_time denoise : ℚ) (mask : Option Mask) :
    (YANCNIKSampler_do_it env h0 model seed steps cfg cfg_noise sampler_name
      scheduler positive negative latent_image noise_strength none
      inject_time denoise mask).2.2 =
      .error "AttributeError: NoneType object has no attribute copy" :=
  nik_none_error env h0 model seed steps cfg cfg_noise sampler_name scheduler
    positive negative latent_image noise_strength inject_time denoise mask

/-- C5: for every invocation, the first Denoiser call (Phase A) ends at
`inject_at_step = round(steps * inject_time)` (Python `round`, ties to
even); in particular `round(30 * 0.5) = 15` and `round(10 * 0.33) = 3`. -/
theorem nik_inject_at_step_round (env : SamplerEnv) (h0 : Heap)
    (model : Model) (seed steps : ℕ) (cfg cfg_noise : ℚ)
    (sampler_name scheduler positive negative : ℕ)
    (latent_image : ℕ) (noise_strength : ℚ) (latent_noise : Option ℕ)
    (inject_time denoise : ℚ) (mask : Option Mask) :
    ((YANCNIKSampler_do_it env h0 model seed steps cfg cfg_noise sampler_name
      scheduler positive negative latent_image noise_strength latent_noise
      inject_time denoise mask).2.1.head?.map (fun c => c.last_step)) =
      some (some (roundHalfEven ((steps : ℚ) * inject_time))) ∧
    roundHalfEven ((30 : ℚ) * (1/2)) = 15 ∧
    roundHalfEven ((10 : ℚ) * (33/100)) = 3 := by
  refine ⟨?_, roundHalfEven_15, roundHalfEven_33⟩
  rw [nik_trace_head]
  rfl

/-- C4: the guidance-rescale patch is applied to the model of the Phase B
Denoiser call iff `round(cfg_noise, 1) > 8.0`; when applied, the
multiplier is fixed at `0.65` and `patch` installs the function on a new
record with the same base weights (`m = model.clone()` — the original
handle is never mutated).  `cfg_noise = 8.05` (the binary64 double
`4531747125041562/2^49`) activates the patch; `cfg_noise = 8.0` does not. -/
theorem nik_patch_condition (env : SamplerEnv) (h0 : Heap) (model : Model)
    (seed steps : ℕ) (cfg cfg_noise : ℚ)
    (sampler_name scheduler positive negative : ℕ)
    (latent_image : ℕ) (noise_strength : ℚ) (ln : ℕ)
    (inject_time denoise : ℚ) (mask : Option Mask)
    (hL : latent_image < h0.nextD) (hln : ln < h0.nextD) :
    ((YANCNIKSampler_do_it env h0 model seed steps cfg cfg_noise sampler_name
      scheduler positive negative latent_image noise_strength (some ln)
      inject_time denoise mask).2.1.getLast?.map (fun c => c.model)) =
      some (if pyRound1 cfg_noise > 8 then (patch model (65/100)).1 else model) ∧
    (patch model (65/100)).1 =
      { base := model.base, cfgMultiplier := some (65/100) } ∧
    pyRound1 ((4531747125041562 : ℚ) / 2 ^ 49) > 8 ∧
    ¬ pyRound1 (8 : ℚ) > 8 := by
  refine ⟨?_, rfl, by rw [pyRound1_d805]; norm_num, by rw [pyRound1_8]; norm_num⟩
  obtain ⟨ht, -, -⟩ := nik_some_spec env h0 model seed steps cfg cfg_noise
    sampler_name scheduler positive negative latent_image noise_strength ln
    inject_time denoise mask hL hln
  rw [ht]
  split <;> simp [nikCallB, nikModelB]

/-- Witness for C4: at `cfg_noise` the double of 8.05 the Phase B model is
the patched clone. -/
theorem nik_patch_condition_witness :
    ((YANCNIKSampler_do_it sEnv0 heap0 m0 0 10 8 ((4531747125041562 : ℚ) / 2 ^ 49)
      0 0 0 0 0 (1/2) (some 1) (1/2) 1 none).2.1.getLast?.map (fun c => c.model)) =
      some ((patch m0 (65/100)).1) := by
  have h := nik_patch_condition sEnv0 heap0 m0 0 10 8
    ((4531747125041562 : ℚ) / 2 ^ 49) 0 0 0 0 0 (1/2) 1 (1/2) 1 none
    (by decide) (by decide)
  rw [h.1, if_pos h.2.2.1]

/-- C6: for every invocation with `latent_noise` supplied (a raising run
makes no Phase B call, see C2), the first Denoiser call is Phase A — over
steps 0 to `inject_at_step` with `force_full_denoise = true` — and the
last is Phase B — over `inject_at_step` to `steps` with
`force_full_denoise = false`, `disable_noise = false` and guidance scale
`cfg_noise`; the returned latent is the Phase B output dict, whose samples
are Phase B's output, composited through the mask when one is supplied. -/
theorem nik_phase_calls (env : SamplerEnv) (h0 : Heap) (model : Model)
    (seed steps : ℕ) (cfg cfg_noise : ℚ)
    (sampler_name scheduler positive negative : ℕ)
    (latent_image : ℕ) (noise_strength : ℚ) (ln : ℕ)
    (inject_time denoise : ℚ) (mask : Option Mask)
    (hL : latent_image < h0.nextD) (hln : ln < h0.nextD) :
    (YANCNIKSampler_do_it env h0 model seed steps cfg cfg_noise sampler_name
      scheduler positive negative latent_image noise_strength (some ln)
      inject_time denoise mask).2.1.head? =
      some (nikCallA h0 model seed steps cfg sampler_name scheduler positive
        negative latent_image inject_time denoise) ∧
    (YANCNIKSampler_do_it env h0 model seed steps cfg cfg_noise sampler_name
      scheduler positive negative latent_image noise_strength (some ln)
      inject_time denoise mask).2.1.getLast? =
      some (nikCallB env h0 model seed steps cfg cfg_noise sampler_name
        scheduler positive negative latent_image noise_strength ln inject_time
        denoise mask) ∧
    (nikCallA h0 model seed steps cfg sampler_name scheduler positive negative
      latent_image inject_time denoise).start_step = some 0 ∧
    (nikCallA h0 model seed steps cfg sampler_name scheduler positive negative
      latent_image inject_time denoise).last_step =
      some (roundHalfEven ((steps : ℚ) * inject_time)) ∧
    (nikCallA h0 model seed steps cfg sampler_name scheduler positive negative
      latent_image inject_time denoise).force_full_denoise = true ∧
    (nikCallB env h0 model seed steps cfg cfg_noise sampler_name scheduler
      positive negative latent_image noise_strength ln inject_time denoise
      mask).cfg = cfg_noise ∧
    (nikCallB env h0 model seed steps cfg cfg_noise sampler_name scheduler
      positive negative latent_image noise_strength ln inject_time denoise
      mask).start_step = some (roundHalfEven ((steps : ℚ) * inject_time)) ∧
    (nikCallB env h0 model seed steps cfg cfg_noise sampler_name scheduler
      positive negative latent_image noise_strength ln inject_time denoise
      mask).last_step = some (steps : ℤ) ∧
    (nikCallB env h0 model seed steps cfg cfg_noise sampler_name scheduler
      positive negative latent_image noise_strength ln inject_time denoise
      mask).force_full_denoise = false ∧
    (nikCallB env h0 model seed steps cfg cfg_noise sampler_name scheduler
      positive negative latent_image noise_strength ln inject_time denoise
      mask).disable_noise = false ∧
    (YANCNIKSampler_do_it env h0 model seed steps cfg cfg_noise sampler_name
      scheduler positive negative latent_image noise_strength (some ln)
      inject_time denoise mask).2.2 =
      .ok (if mask.isSome then h0.nextD + 3 else h0.nextD + 2) ∧
    (YANCNIKSampler_do_it env h0 model seed steps cfg cfg_noise sampler_name
      scheduler positive negative latent_image noise_strength (some ln)
      inject_time denoise mask).1.dictOf
        (if mask.isSome then h0.nextD + 3 else h0.nextD + 2) =
      nikResult env h0 model seed steps cfg cfg_noise sampler_name scheduler
        positive negative latent_image noise_strength ln inject_time denoise
        mask := by
  obtain ⟨ht, he, hr⟩ := nik_some_spec env h0 model seed steps cfg cfg_noise
    sampler_name scheduler positive negative latent_image noise_strength ln
    inject_time denoise mask hL hln
  refine ⟨?_, ?_, rfl, rfl, rfl, rfl, rfl, rfl, rfl, rfl, he, hr⟩
  · rw [ht]; split <;> rfl
  · rw [ht]; split <;> rfl

/-- Witness for C6: concrete run; the first Denoiser call is the Phase A
call. -/
theorem nik_phase_calls_witness :
    (YANCNIKSampler_do_it sEnv0 heap0 m0 0 10 8 8 0 0 0 0 0 (1/2) (some 1)
      (1/2) 1 none).2.1.head? =
      some (nikCallA heap0 m0 0 10 8 0 0 0 0 0 (1/2) 1) :=
  (nik_phase_calls sEnv0 heap0 m0 0 10 8 8 0 0 0 0 0 (1/2) 1 (1/2) 1 none
    (by decide) (by decide)).1

/-- C7 (amended): with `latent_noise` supplied, the latent handed to
Phase B equals `base * (1 - noise_strength) + latent_noise * noise_strength`
(after any shape reconciliation of the noise), where `base` is Phase A's
output — except that when a mask is supplied and EVERY value of
`latent_image` is non-zero (the code's `empty_latent` test, not mere
non-emptiness), the base is the cloned `latent_image` instead. -/
theorem nik_phaseB_latent_blend (env : SamplerEnv) (h0 : Heap) (model : Model)
    (seed steps : ℕ) (cfg cfg_noise : ℚ)
    (sampler_name scheduler positive negative : ℕ)
    (latent_image : ℕ) (noise_strength : ℚ) (ln : ℕ)
    (inject_time denoise : ℚ) (mask : Option Mask)
    (hL : latent_image < h0.nextD) (hln : ln < h0.nextD) :
    ((YANCNIKSampler_do_it env h0 model seed steps cfg cfg_noise sampler_name
      scheduler positive negative latent_image noise_strength (some ln)
      inject_time denoise mask).2.1.getLast?.map (fun c => c.latent)) =
      some (nikBlend env h0 model seed steps cfg sampler_name scheduler
        positive negative latent_image noise_strength ln inject_time denoise
        mask) ∧
    nikBlend env h0 model seed steps cfg sampler_name scheduler positive
      negative latent_image noise_strength ln inject_time denoise mask =
      List.zipWith (fun a b => a + b)
        ((nikBase env h0 model seed steps cfg sampler_name scheduler positive
            negative latent_image inject_time denoise mask).map
          (fun v => v * (1 - noise_strength)))
        ((nikNoise env h0 model seed steps cfg sampler_name scheduler positive
            negative latent_image ln inject_time denoise mask).map
          (fun v => v * noise_strength)) ∧
    nikBase env h0 model seed steps cfg sampler_name scheduler positive
      negative latent_image inject_time denoise mask =
      (if mask.isSome && torchAll (h0.dictOf latent_image) then
        h0.dictOf latent_image
      else
        env.ksampler (nikCallA h0 model seed steps cfg sampler_name scheduler
          positive negative latent_image inject_time denoise)) := by
  refine ⟨?_, rfl, ?_⟩
  · obtain ⟨ht, -, -⟩ := nik_some_spec env h0 model seed steps cfg cfg_noise
      sampler_name scheduler positive negative latent_image noise_strength ln
      inject_time denoise mask hL hln
    rw [ht]
    split <;> simp [nikCallB]
  · unfold nikBase
    rw [emptyLatentCheck_eq_not_torchAll, Bool.not_not]

/-- Witness for C7's amended theorem: concrete run with a mask and a fully
non-zero latent. -/
theorem nik_phaseB_latent_blend_witness :
    ((YANCNIKSampler_do_it sEnv0 heap0 m0 0 10 8 8 0 0 0 0 1 (1/2) (some 1)
      (1/2) 1 (some [1])).2.1.getLast?.map (fun c => c.latent)) =
      some (nikBlend sEnv0 heap0 m0 0 10 8 0 0 0 0 1 (1/2) 1 (1/2) 1 (some [1])) :=
  (nik_phaseB_latent_blend sEnv0 heap0 m0 0 10 8 8 0 0 0 0 1 (1/2) 1 (1/2) 1
    (some [1]) (by decide) (by decide)).1

/-- C7 counterexample: with a mask and `latent_image = [0, 1]` — non-empty
as the claim reads it, since it contains the non-zero value 1 — the latent
handed to Phase B is `[7/2, 4]`, the blend seeded from Phase A's output
`[5, 5]`; it is NOT the blend seeded from `latent_image` (which would be
`[1, 2]`), because the code's `empty_latent` test classifies `[0, 1]` as
empty. -/
theorem nik_phaseB_latent_blend_counterexample :
    ((1 : ℚ) ∈ heap0.dictOf 0 ∧ (1 : ℚ) ≠ 0) ∧
    ((YANCNIKSampler_do_it sEnv0 heap0 m0 0 10 8 8 0 0 0 0 0 (1/2) (some 1)
      (1/2) 1 (some [1])).2.1.getLast?.map (fun c => c.latent)) =
      some [7/2, 4] ∧
    ([7/2, 4] : Tensor) ≠
      List.zipWith (fun a b => a + b)
        ((heap0.dictOf 0).map (fun v => v * (1 - 1/2)))
        ((heap0.dictOf 1).map (fun v => v * (1/2))) := by
  refine ⟨⟨by norm_num [heap0], by norm_num⟩, ?_, ?_⟩
  · obtain ⟨ht, -, -⟩ := nik_some_spec sEnv0 heap0 m0 0 10 8 8 0 0 0 0 0 (1/2)
      1 (1/2) 1 (some [1]) (by decide) (by decide)
    rw [ht]
    norm_num [heap0, emptyLatentCheck, torchAll, nikCallB, nikBlend, nikBase,
      nikNoise, nikCallA, sEnv0]
  · norm_num [heap0]

/-- C10: the caller's `latent_image` dict is left unchanged by a
`YANCNIKSampler.do_it` call (whether or not `latent_noise`/mask are
supplied, and also on the raising path): every derived latent is a fresh
dict built from `latent.copy()` plus cloned samples, every write targets a
dict allocated during the run, and no tensor is mutated in place; so the
caller's latent holds the same samples after the call as before. -/
theorem nik_latent_image_unchanged (env : SamplerEnv) (h0 : Heap)
    (model : Model) (seed steps : ℕ) (cfg cfg_noise : ℚ)
    (sampler_name scheduler positive negative : ℕ)
    (latent_image : ℕ) (noise_strength : ℚ) (latent_noise : Option ℕ)
    (inject_time denoise : ℚ) (mask : Option Mask)
    (hL : latent_image < h0.nextD) :
    (YANCNIKSampler_do_it env h0 model seed steps cfg cfg_noise sampler_name
      scheduler positive negative latent_image noise_strength latent_noise
      inject_time denoise mask).1.dictOf latent_image =
      h0.dictOf latent_image :=
  nik_preserves env h0 model seed steps cfg cfg_noise sampler_name scheduler
    positive negative latent_image noise_strength latent_noise inject_time
    denoise mask hL

/-- Witness for C10: concrete run with a mask and noise; dict 0 still holds
its original samples afterwards. -/
theorem nik_latent_image_unchanged_witness :
    (0 < heap0.nextD) ∧
    (YANCNIKSampler_do_it sEnv0 heap0 m0 0 10 8 8 0 0 0 0 0 (1/2) (some 1)
      (1/2) 1 (some [1])).1.dictOf 0 = heap0.dictOf 0 :=
  ⟨by decide, nik_latent_image_unchanged sEnv0 heap0 m0 0 10 8 8 0 0 0 0 0
    (1/2) (some 1) (1/2) 1 (some [1]) (by decide)⟩
